import Mathlib

/-!
Verification of the `bigcommerce-oauth-next` repository.

This file gives a shallow embedding, in Lean 4, of the two pieces of the
repository with logic worth checking:

* the `InstallController` class
  (`src/use-cases/install/controllers/InstallController.ts`), which adapts a
  BigCommerce OAuth installation callback request into a call to an external
  installation use case and produces a redirect response; and
* the recursive directory-copy utility `copyDirectory`
  (`src/cli/utils/fileCopy.js`), used by the `init` CLI command.

JavaScript strings are Lean `String`s; `null`/`undefined` become `Option`;
a thrown exception becomes an `Except.error`. The externally supplied
installation use case is modelled as a function from its parameter object to
`Except ThrownError Unit`, covering every behaviour the controller can
observe: returning normally or throwing any value. The one observable side
effect of the controller, the call to `installApp.execute`, is made explicit:
`performInstall` returns, next to its result DTO, the list of parameter
objects with which `execute` was invoked during the request.
-/

/-- The set of error values the controller can observe being thrown.
`missingOAuthParams` models an instance of `MissingOAuthParamsError` (the
class carries a fixed message and no other data); `bigCommerceTokenExchange`
models an instance of the externally defined `BigCommerceTokenExchangeError`,
whose payload we keep abstract as a string; `other` models any other thrown
value, with its full detail abstracted as a string payload. -/
inductive ThrownError where
  | missingOAuthParams : ThrownError
  | bigCommerceTokenExchange : String → ThrownError
  | other : String → ThrownError
deriving DecidableEq, Repr

/-- The `status` field of the `InstallResult` DTO
(`InstallStatus = 'success' | 'error'` in `InstallStatus.ts`). -/
inductive InstallStatus where
  | success : InstallStatus
  | error : InstallStatus
deriving DecidableEq, Repr

/-- The string a status renders to when placed in the query string. -/
def InstallStatus.toString : InstallStatus → String
  | .success => "success"
  | .error => "error"

/-- The `InstallResult` DTO (`InstallResult.ts`): high-level status plus an
optional store context (success only) and an optional error code. -/
structure InstallResult where
  status : InstallStatus
  context : Option String := none
  errorCode : Option String := none
deriving DecidableEq, Repr

/-- The validated OAuth parameters extracted from the callback request by
`getOAuthParams`. -/
structure OAuthParams where
  code : String
  context : String
  scope : String
deriving DecidableEq, Repr

/-- The parameter object passed to `installApp.execute`: the validated OAuth
parameters spread together with the configured `redirectUri`
(`\x7b ...params, redirectUri: this.redirectUri \x7d` in `performInstall`). -/
structure InstallParams where
  code : String
  context : String
  scope : String
  redirectUri : String
deriving DecidableEq, Repr

/-- The externally supplied installation use case. Its `execute` either
returns (the controller ignores the returned value) or throws; the options
argument is always the empty object and is omitted. -/
def InstallAppUseCase : Type :=
  InstallParams → Except ThrownError Unit

/-- Shallow model of the incoming `NextRequest`: the decoded query-string
pairs of `new URL(req.url).searchParams`, in order, and the request headers.
Only these two projections of the request are read by the controller. -/
structure HttpRequest where
  query : List (String × String)
  headers : List (String × String)

/-- `URLSearchParams.get(name)`: the value of the first pair whose key is
`name`, or `null` when no pair has that key. -/
def searchParamsGet (query : List (String × String)) (name : String) : Option String :=
  (query.find? (fun p => p.1 == name)).map (fun p => p.2)

/-- ASCII lowercasing of one character. -/
def lowerChar (c : Char) : Char :=
  if 65 ≤ c.toNat && c.toNat ≤ 90 then Char.ofNat (c.toNat + 32) else c

/-- ASCII lowercasing of a string, used for case-insensitive header names. -/
def lowerString (s : String) : String :=
  String.mk (s.toList.map lowerChar)

/-- `Headers.get(name)`: header lookup is case-insensitive per the Fetch
specification; the first matching header value is returned. -/
def headersGet (headers : List (String × String)) (name : String) : Option String :=
  (headers.find? (fun p => lowerString p.1 == lowerString name)).map (fun p => p.2)

/-- Characters the `application/x-www-form-urlencoded` serializer emits
unchanged: ASCII alphanumerics and `*`, `-`, `.`, `_`. -/
def isUrlencodedSafe (c : Char) : Bool :=
  c.isAlphanum || c == '*' || c == '-' || c == '.' || c == '_'

/-- The hexadecimal digit character (uppercase) for a value below 16. -/
def hexDigitChar (n : Nat) : Char :=
  if n < 10 then Char.ofNat (48 + n) else Char.ofNat (55 + n)

/-- Percent-encoding of one byte value, e.g. `0x2F` becomes `"%2F"`. -/
def percentEncodeByte (b : Nat) : String :=
  String.mk ['%', hexDigitChar (b / 16), hexDigitChar (b % 16)]

/-- The UTF-8 byte values of a single character. -/
def utf8BytesOfChar (c : Char) : List Nat :=
  let n := c.toNat
  if n < 128 then [n]
  else if n < 2048 then [192 + n / 64, 128 + n % 64]
  else if n < 65536 then [224 + n / 4096, 128 + n / 64 % 64, 128 + n % 64]
  else [240 + n / 262144, 128 + n / 4096 % 64, 128 + n / 64 % 64, 128 + n % 64]

/-- `application/x-www-form-urlencoded` encoding of one character: safe
characters pass through, a space becomes `+`, everything else is the
percent-encoding of its UTF-8 bytes. -/
def urlencodedChar (c : Char) : String :=
  if isUrlencodedSafe c then String.singleton c
  else if c == ' ' then "+"
  else String.join ((utf8BytesOfChar c).map percentEncodeByte)

/-- `application/x-www-form-urlencoded` encoding of a string. -/
def urlencoded (s : String) : String :=
  String.join (s.toList.map urlencodedChar)

/-- `URLSearchParams.toString()`: each pair rendered as
`key=value` with both sides form-urlencoded, joined with `&`. -/
def serializeQuery (pairs : List (String × String)) : String :=
  String.intercalate "&" (pairs.map (fun p => urlencoded p.1 ++ "=" ++ urlencoded p.2))

/-- Shallow model of the `NextResponse` returned by the controller: the
absolute redirect URL placed in the `Location` header and the HTTP status
code. `NextResponse.redirect(url)` uses status 307 by default. -/
structure NextResponseRedirect where
  location : String
  status : Nat
deriving DecidableEq, Repr

/-- `NextResponse.redirect`: wraps an absolute URL in a 307 redirect. -/
def NextResponse.redirect (url : String) : NextResponseRedirect :=
  { location := url, status := 307 }

/-- The configuration object for constructing an `InstallController`
(`InstallHandlerConfig.ts`); `successPath` and `errorPath` are optional. -/
structure InstallHandlerConfig where
  installApp : InstallAppUseCase
  redirectUri : String
  successPath : Option String := none
  errorPath : Option String := none

/-- The `InstallController`'s instance state: its four `readonly` fields. -/
structure InstallController where
  installApp : InstallAppUseCase
  redirectUri : String
  successPath : String
  errorPath : String

/-- The protected constructor of `InstallController`: copies `installApp`
and `redirectUri` from the configuration and applies the nullish-coalescing
default `'/auth/result'` to `successPath` and `errorPath`. -/
def InstallController.ofConfig (config : InstallHandlerConfig) : InstallController :=
  { installApp := config.installApp
    redirectUri := config.redirectUri
    successPath := config.successPath.getD "/auth/result"
    errorPath := config.errorPath.getD "/auth/result" }

/-- `InstallController.getOAuthParams`: reads `code`, `context` and `scope`
from the query string, each defaulting to the empty string when absent, and
throws `MissingOAuthParamsError` when `code` or `context` is falsy (the
empty string). This method reads no instance state. -/
def InstallController.getOAuthParams (req : HttpRequest) : Except ThrownError OAuthParams :=
  let code := (searchParamsGet req.query "code").getD ""
  let context := (searchParamsGet req.query "context").getD ""
  let scope := (searchParamsGet req.query "scope").getD ""
  if code = "" ∨ context = "" then
    Except.error ThrownError.missingOAuthParams
  else
    Except.ok { code := code, context := context, scope := scope }

/-- `InstallController.mapErrorToCode`: `instanceof` dispatch on the thrown
value, yielding one of three fixed strings. Reads no instance state. -/
def InstallController.mapErrorToCode : ThrownError → String
  | ThrownError.missingOAuthParams => "missing_params"
  | ThrownError.bigCommerceTokenExchange _ => "token_exchange_failed"
  | ThrownError.other _ => "unknown"

/-- `InstallController.performInstall`: extracts the parameters, invokes the
use case once with the parameters spread together with the configured
`redirectUri`, and catches anything thrown by either step, mapping it to an
error code. The second component of the result is the trace of calls made to
`installApp.execute` during this request (the method's one side effect). -/
def InstallController.performInstall (ctrl : InstallController) (req : HttpRequest) :
    InstallResult × List InstallParams :=
  match InstallController.getOAuthParams req with
  | Except.error err =>
      ({ status := InstallStatus.error
         errorCode := some (InstallController.mapErrorToCode err) }, [])
  | Except.ok params =>
      let callParams : InstallParams :=
        { code := params.code, context := params.context, scope := params.scope
          redirectUri := ctrl.redirectUri }
      match ctrl.installApp callParams with
      | Except.ok _ =>
          ({ status := InstallStatus.success, context := some params.context }, [callParams])
      | Except.error err =>
          ({ status := InstallStatus.error
             errorCode := some (InstallController.mapErrorToCode err) }, [callParams])

/-- `InstallController.getBaseUrl`: host is `x-forwarded-host`, else `host`,
else `localhost:3000`; protocol is `x-forwarded-proto`, else `http`; the
base URL is `protocol://host`. Reads no instance state. -/
def InstallController.getBaseUrl (req : HttpRequest) : String :=
  let host :=
    (headersGet req.headers "x-forwarded-host").getD
      ((headersGet req.headers "host").getD "localhost:3000")
  let protocol := (headersGet req.headers "x-forwarded-proto").getD "http"
  protocol ++ "://" ++ host

/-- The `URLSearchParams` object literal built in `buildRedirectResponse`:
`status` always, then `context` only when that field is truthy (a non-empty
string), then `code` only when that field is truthy. -/
def redirectSearchList (outcome : InstallResult) : List (String × String) :=
  [("status", outcome.status.toString)]
    ++ (match outcome.context with
        | some c => if c = "" then [] else [("context", c)]
        | none => [])
    ++ (match outcome.errorCode with
        | some c => if c = "" then [] else [("code", c)]
        | none => [])

/-- `InstallController.buildRedirectResponse`: resolves the public base URL,
picks `successPath` or `errorPath` by the outcome's status, and redirects to
the absolute URL `base ++ path ++ "?" ++ serialized-query` (the resolution
`new URL(path?search, baseUrl)` for a root-relative configured path against
the authority-only base URL). -/
def InstallController.buildRedirectResponse (ctrl : InstallController) (req : HttpRequest)
    (outcome : InstallResult) : NextResponseRedirect :=
  let baseUrl := InstallController.getBaseUrl req
  let targetPath :=
    if outcome.status = InstallStatus.success then ctrl.successPath else ctrl.errorPath
  NextResponse.redirect
    (baseUrl ++ targetPath ++ "?" ++ serializeQuery (redirectSearchList outcome))

/-- `InstallController.handle`: runs the installation flow and builds the
redirect. The call trace from `performInstall` is passed through. -/
def InstallController.handle (ctrl : InstallController) (req : HttpRequest) :
    NextResponseRedirect × List InstallParams :=
  let outcome := ctrl.performInstall req
  (ctrl.buildRedirectResponse req outcome.1, outcome.2)

/-- One framework invocation of the bound handler: all four controller
fields are `readonly` and no method assigns to `this`, so the controller
state after the invocation is the state before it, next to the response. -/
def InstallController.handleStep (ctrl : InstallController) (req : HttpRequest) :
    InstallController × (NextResponseRedirect × List InstallParams) :=
  (ctrl, ctrl.handle req)

/-- A sequence of framework invocations of the same bound handler, threading
the controller state from each invocation to the next. -/
def InstallController.runRequests (ctrl : InstallController) :
    List HttpRequest → InstallController × List (NextResponseRedirect × List InstallParams)
  | [] => (ctrl, [])
  | req :: rest =>
      let step := ctrl.handleStep req
      let tail := InstallController.runRequests step.1 rest
      (tail.1, step.2 :: tail.2)

/-- `InstallController.create`: constructs the controller from the
configuration and returns its bound `handle`. -/
def InstallController.create (config : InstallHandlerConfig) :
    HttpRequest → NextResponseRedirect × List InstallParams :=
  fun req => (InstallController.ofConfig config).handle req

/-- A node of the file system: a regular file with its contents, or a
directory with its named entries (an association list; a real directory has
pairwise-distinct entry names). -/
inductive FsTree where
  | file : String → FsTree
  | dir : List (String × FsTree) → FsTree

/-- The entry named `n` of a directory listing, if present. -/
def lookupEntry (entries : List (String × FsTree)) (n : String) : Option FsTree :=
  (entries.find? (fun p => p.1 == n)).map (fun p => p.2)

/-- Writing entry `n` into a directory listing: replaces an existing entry
of that name in place, otherwise appends it. -/
def insertEntry : List (String × FsTree) → String → FsTree → List (String × FsTree)
  | [], n, t => [(n, t)]
  | (m, u) :: rest, n, t =>
      if m == n then (n, t) :: rest else (m, u) :: insertEntry rest n t

mutual

/-- The loop body of `copyDirectory` over the source directory's entries,
acting on the destination directory's listing. A source file is copied with
`fs.copyFileSync`, which overwrites an existing destination file and throws
`EISDIR` when the destination entry is a directory; a source directory
recurses into `copyDirectory` with the same-named destination entry (or its
absence). -/
def copyDirEntries : List (String × FsTree) → List (String × FsTree) →
    Except String (List (String × FsTree))
  | [], dest => Except.ok dest
  | (n, FsTree.file c) :: rest, dest =>
      (match lookupEntry dest n with
       | some (FsTree.dir _) => Except.error "EISDIR"
       | _ => copyDirEntries rest (insertEntry dest n (FsTree.file c)))
  | (n, FsTree.dir subs) :: rest, dest =>
      (match copyDirEntriesInto subs (lookupEntry dest n) with
       | Except.error e => Except.error e
       | Except.ok subTree => copyDirEntries rest (insertEntry dest n subTree))

/-- `copyDirectory(src, dest)` for a source directory with listing `src` and
a destination that may not exist: when the destination does not exist it is
created as an empty directory (`fs.mkdirSync` recursive); when it exists as
a directory its listing is the starting point; when it exists as a file the
`existsSync` guard skips `mkdirSync`, so an empty source listing leaves the
file in place while any entry copy into it fails with `ENOTDIR`. -/
def copyDirEntriesInto (src : List (String × FsTree)) :
    Option FsTree → Except String FsTree
  | none => (copyDirEntries src []).map FsTree.dir
  | some (FsTree.dir destEntries) => (copyDirEntries src destEntries).map FsTree.dir
  | some (FsTree.file c) =>
      if src.isEmpty then Except.ok (FsTree.file c) else Except.error "ENOTDIR"

end

/-- `copyDirectory(src, dest)`: `fs.readdirSync` on a source that is a
regular file throws `ENOTDIR`; on a directory the entries are copied into
the destination as described by `copyDirEntriesInto`. -/
def copyDirectory (src : FsTree) (dest : Option FsTree) : Except String FsTree :=
  match src with
  | FsTree.file _ => Except.error "ENOTDIR"
  | FsTree.dir srcEntries => copyDirEntriesInto srcEntries dest

/-- A source tree holding one root file (named `f`, contents `a`) and one
file (named `g`, contents `b`) nested in a subdirectory named `d`. -/
def twoFileTree (f d g a b : String) : FsTree :=
  FsTree.dir [(f, FsTree.file a), (d, FsTree.dir [(g, FsTree.file b)])]

/-! ## Shared lemmas and concrete fixtures -/

/-- A use case that always completes without error. -/
def okUseCase : InstallAppUseCase := fun _ => Except.ok ()

/-- A use case that always throws the given error value. -/
def failUseCase (e : ThrownError) : InstallAppUseCase := fun _ => Except.error e

/-- A concrete controller used to exercise the theorems. -/
def wCtrl : InstallController :=
  InstallController.ofConfig
    { installApp := okUseCase, redirectUri := "https://app.example.com/api/auth" }

/-- A concrete request carrying valid `code` and `context` and no headers. -/
def wReqValid : HttpRequest :=
  { query := [("code", "abc"), ("context", "stores/1")], headers := [] }

/-- A concrete request with an empty query string and no headers. -/
def wReqEmpty : HttpRequest := { query := [], headers := [] }

theorem getOAuthParams_ok_of (req : HttpRequest) (c ctx : String)
    (hc : searchParamsGet req.query "code" = some c) (hc0 : c ≠ "")
    (hx : searchParamsGet req.query "context" = some ctx) (hx0 : ctx ≠ "") :
    InstallController.getOAuthParams req =
      Except.ok { code := c, context := ctx
                  scope := (searchParamsGet req.query "scope").getD "" } := by
  unfold InstallController.getOAuthParams
  rw [hc, hx]
  simp [hc0, hx0]

theorem getOAuthParams_error_of (req : HttpRequest)
    (h : ((searchParamsGet req.query "code").getD "" = "") ∨
      ((searchParamsGet req.query "context").getD "" = "")) :
    InstallController.getOAuthParams req = Except.error ThrownError.missingOAuthParams := by
  unfold InstallController.getOAuthParams
  simp only []
  rw [if_pos h]

theorem getOAuthParams_ok_nonempty (req : HttpRequest) (p : OAuthParams)
    (h : InstallController.getOAuthParams req = Except.ok p) :
    p.code ≠ "" ∧ p.context ≠ "" := by
  unfold InstallController.getOAuthParams at h
  by_cases hcond : ((searchParamsGet req.query "code").getD "" = "") ∨
      ((searchParamsGet req.query "context").getD "" = "")
  · rw [if_pos hcond] at h
    exact absurd h (by simp)
  · rw [if_neg hcond] at h
    push_neg at hcond
    cases h
    exact hcond

theorem getOAuthParams_ok_context (req : HttpRequest) (p : OAuthParams)
    (h : InstallController.getOAuthParams req = Except.ok p) :
    searchParamsGet req.query "context" = some p.context := by
  unfold InstallController.getOAuthParams at h
  by_cases hcond : ((searchParamsGet req.query "code").getD "" = "") ∨
      ((searchParamsGet req.query "context").getD "" = "")
  · rw [if_pos hcond] at h
    exact absurd h (by simp)
  · rw [if_neg hcond] at h
    push_neg at hcond
    cases h
    cases hs : searchParamsGet req.query "context" with
    | none =>
        rw [hs] at hcond
        simp at hcond
    | some v =>
        rfl

/-! ## Claim C1 -/

/-- Claim C1: for every request whose query string has non-empty `code` and
non-empty `context`, `handle` invokes the installation use case's `execute`
exactly once, with the object consisting of those `code` and `context`
values, the configured `redirectUri`, and `scope` equal to the query-string
`scope` value, defaulting to the empty string when absent. -/
theorem installController_invokes_use_case_once (ctrl : InstallController)
    (req : HttpRequest) (c ctx : String)
    (hc : searchParamsGet req.query "code" = some c) (hc0 : c ≠ "")
    (hx : searchParamsGet req.query "context" = some ctx) (hx0 : ctx ≠ "") :
    (ctrl.handle req).2 =
      [{ code := c, context := ctx
         scope := (searchParamsGet req.query "scope").getD ""
         redirectUri := ctrl.redirectUri }] := by
  unfold InstallController.handle InstallController.performInstall
  rw [getOAuthParams_ok_of req c ctx hc hc0 hx hx0]
  cases hres : ctrl.installApp
      (⟨c, ctx, (searchParamsGet req.query "scope").getD "", ctrl.redirectUri⟩ : InstallParams) <;>
    simp [hres]

/-- Witness for C1 at a concrete controller and request. -/
theorem installController_invokes_use_case_once_witness :
    (wCtrl.handle wReqValid).2 =
      [{ code := "abc", context := "stores/1", scope := ""
         redirectUri := "https://app.example.com/api/auth" }] :=
  installController_invokes_use_case_once wCtrl wReqValid "abc" "stores/1"
    rfl (by decide) rfl (by decide)

/-! ## Claim C2 -/

theorem serializeQuery_missing_params :
    serializeQuery [("status", "error"), ("code", "missing_params")] =
      "status=error&code=missing_params" := by decide

theorem buildRedirectResponse_error (ctrl : InstallController) (req : HttpRequest)
    (c : String) (hc : c ≠ "") :
    ctrl.buildRedirectResponse req { status := InstallStatus.error, errorCode := some c } =
      NextResponse.redirect (InstallController.getBaseUrl req ++ ctrl.errorPath ++ "?" ++
        serializeQuery [("status", "error"), ("code", c)]) := by
  unfold InstallController.buildRedirectResponse redirectSearchList
  simp [hc, InstallStatus.toString]

theorem buildRedirectResponse_success (ctrl : InstallController) (req : HttpRequest)
    (ctx : String) (hctx : ctx ≠ "") :
    ctrl.buildRedirectResponse req { status := InstallStatus.success, context := some ctx } =
      NextResponse.redirect (InstallController.getBaseUrl req ++ ctrl.successPath ++ "?" ++
        serializeQuery [("status", "success"), ("context", ctx)]) := by
  unfold InstallController.buildRedirectResponse redirectSearchList
  simp [hctx, InstallStatus.toString]

/-- Claim C2: when the query parameter `code` or `context` (or both) is
absent or empty, the installation use case is never invoked (the call trace
is empty) and the redirect URL carries `status=error&code=missing_params`
on the configured error path. -/
theorem installController_missing_params_redirect (ctrl : InstallController)
    (req : HttpRequest)
    (h : (searchParamsGet req.query "code" = none ∨ searchParamsGet req.query "code" = some "") ∨
      (searchParamsGet req.query "context" = none ∨
        searchParamsGet req.query "context" = some "")) :
    (ctrl.handle req).2 = [] ∧
    (ctrl.handle req).1.location =
      InstallController.getBaseUrl req ++ ctrl.errorPath ++ "?" ++
        "status=error&code=missing_params" := by
  have hd : ((searchParamsGet req.query "code").getD "" = "") ∨
      ((searchParamsGet req.query "context").getD "" = "") := by
    rcases h with (h | h) | (h | h) <;> rw [h] <;> simp
  have hg := getOAuthParams_error_of req hd
  unfold InstallController.handle InstallController.performInstall
  rw [hg]
  refine ⟨rfl, ?_⟩
  show (ctrl.buildRedirectResponse req
    { status := InstallStatus.error, errorCode := some "missing_params" }).location = _
  rw [buildRedirectResponse_error ctrl req "missing_params" (by decide),
    serializeQuery_missing_params]
  rfl

/-- Witness for C2 at a concrete controller and the empty request. -/
theorem installController_missing_params_redirect_witness :
    (wCtrl.handle wReqEmpty).2 = [] ∧
    (wCtrl.handle wReqEmpty).1.location =
      "http://localhost:3000/auth/result?status=error&code=missing_params" :=
  installController_missing_params_redirect wCtrl wReqEmpty (Or.inl (Or.inl rfl))

/-! ## Claim C3 -/

theorem buildRedirectResponse_no_installApp (f g : InstallAppUseCase) (ru sp ep : String)
    (req : HttpRequest) (outcome : InstallResult) :
    InstallController.buildRedirectResponse ⟨f, ru, sp, ep⟩ req outcome =
      InstallController.buildRedirectResponse ⟨g, ru, sp, ep⟩ req outcome := rfl

/-- Claim C3: `mapErrorToCode` is total over all thrown values and yields
exactly one of the three fixed strings, with `missing_params` exactly for
the missing-parameters error and `token_exchange_failed` exactly for the
token-exchange error; moreover the redirect response built by `handle`
depends on a thrown error only through its mapped code, so no detail of the
original exception reaches the response. -/
theorem installController_error_mapping_total :
    (∀ err : ThrownError,
      InstallController.mapErrorToCode err = "missing_params" ∨
      InstallController.mapErrorToCode err = "token_exchange_failed" ∨
      InstallController.mapErrorToCode err = "unknown") ∧
    (∀ err : ThrownError,
      InstallController.mapErrorToCode err = "missing_params" ↔
        err = ThrownError.missingOAuthParams) ∧
    (∀ err : ThrownError,
      InstallController.mapErrorToCode err = "token_exchange_failed" ↔
        ∃ m, err = ThrownError.bigCommerceTokenExchange m) ∧
    (∀ (ru sp ep : String) (req : HttpRequest) (e e' : ThrownError),
      InstallController.mapErrorToCode e = InstallController.mapErrorToCode e' →
      (InstallController.handle ⟨fun _ => Except.error e, ru, sp, ep⟩ req).1 =
        (InstallController.handle ⟨fun _ => Except.error e', ru, sp, ep⟩ req).1) := by
  refine ⟨?_, ?_, ?_, ?_⟩
  · intro err
    cases err <;> simp [InstallController.mapErrorToCode]
  · intro err
    cases err <;> simp [InstallController.mapErrorToCode]
  · intro err
    cases err <;> simp [InstallController.mapErrorToCode]
  · intro ru sp ep req e e' h
    unfold InstallController.handle InstallController.performInstall
    cases hg : InstallController.getOAuthParams req <;> simp [hg, h] <;>
      exact buildRedirectResponse_no_installApp _ _ ru sp ep req _

/-! ## Claims C4 and C10 -/

/-- Claim C4: the reconstructed base URL is `protocol://host`, where host
prefers `x-forwarded-host` over `host` over `localhost:3000` and protocol
prefers `x-forwarded-proto` over `http`; when all forwarded headers and
`host` are present the forwarded values win, and with no headers the base
URL is exactly `http://localhost:3000`. -/
theorem installController_base_url_precedence (req : HttpRequest) :
    InstallController.getBaseUrl req =
      ((headersGet req.headers "x-forwarded-proto").getD "http") ++ "://" ++
        ((headersGet req.headers "x-forwarded-host").getD
          ((headersGet req.headers "host").getD "localhost:3000")) ∧
    (∀ fh fp h : String,
      headersGet req.headers "x-forwarded-host" = some fh →
      headersGet req.headers "x-forwarded-proto" = some fp →
      headersGet req.headers "host" = some h →
      InstallController.getBaseUrl req = fp ++ "://" ++ fh) ∧
    (headersGet req.headers "x-forwarded-host" = none →
      headersGet req.headers "x-forwarded-proto" = none →
      headersGet req.headers "host" = none →
      InstallController.getBaseUrl req = "http://localhost:3000") := by
  refine ⟨rfl, ?_, ?_⟩
  · intro fh fp h hfh hfp _
    unfold InstallController.getBaseUrl
    rw [hfh, hfp]
    rfl
  · intro hfh hfp hh
    unfold InstallController.getBaseUrl
    rw [hfh, hfp, hh]
    rfl

/-- Claim C10: host and protocol selection are independent: with no
`x-forwarded-host` but a `host` header and an `x-forwarded-proto` header,
the base URL combines the forwarded protocol with the plain host; with an
`x-forwarded-host` but no `x-forwarded-proto`, the protocol falls back to
`http`. -/
theorem installController_base_url_independent (req : HttpRequest) (hostVal proto : String) :
    (headersGet req.headers "x-forwarded-host" = none →
      headersGet req.headers "host" = some hostVal →
      headersGet req.headers "x-forwarded-proto" = some proto →
      InstallController.getBaseUrl req = proto ++ "://" ++ hostVal) ∧
    (headersGet req.headers "x-forwarded-host" = some hostVal →
      headersGet req.headers "x-forwarded-proto" = none →
      InstallController.getBaseUrl req = "http://" ++ hostVal) := by
  constructor
  · intro hfh hh hfp
    unfold InstallController.getBaseUrl
    rw [hfh, hh, hfp]
    rfl
  · intro hfh hfp
    unfold InstallController.getBaseUrl
    rw [hfh, hfp]
    rfl

/-! ## Claims C5, C6 and C7 -/

theorem handle_def (ctrl : InstallController) (req : HttpRequest) :
    ctrl.handle req =
      (ctrl.buildRedirectResponse req (ctrl.performInstall req).1,
        (ctrl.performInstall req).2) := rfl

theorem mapErrorToCode_cases (err : ThrownError) :
    InstallController.mapErrorToCode err = "missing_params" ∨
    InstallController.mapErrorToCode err = "token_exchange_failed" ∨
    InstallController.mapErrorToCode err = "unknown" := by
  cases err <;> simp [InstallController.mapErrorToCode]

theorem mapErrorToCode_ne_empty (err : ThrownError) :
    InstallController.mapErrorToCode err ≠ "" := by
  cases err <;> simp [InstallController.mapErrorToCode]

theorem performInstall_error_params (ctrl : InstallController) (req : HttpRequest)
    (err : ThrownError) (hg : InstallController.getOAuthParams req = Except.error err) :
    ctrl.performInstall req =
      ({ status := InstallStatus.error
         errorCode := some (InstallController.mapErrorToCode err) }, []) := by
  unfold InstallController.performInstall
  rw [hg]

theorem performInstall_ok_ok (ctrl : InstallController) (req : HttpRequest) (p : OAuthParams)
    (hg : InstallController.getOAuthParams req = Except.ok p)
    (hres : ctrl.installApp ⟨p.code, p.context, p.scope, ctrl.redirectUri⟩ = Except.ok ()) :
    ctrl.performInstall req =
      ({ status := InstallStatus.success, context := some p.context },
        [⟨p.code, p.context, p.scope, ctrl.redirectUri⟩]) := by
  unfold InstallController.performInstall
  rw [hg]
  simp [hres]

theorem performInstall_ok_error (ctrl : InstallController) (req : HttpRequest) (p : OAuthParams)
    (e : ThrownError) (hg : InstallController.getOAuthParams req = Except.ok p)
    (hres : ctrl.installApp ⟨p.code, p.context, p.scope, ctrl.redirectUri⟩ = Except.error e) :
    ctrl.performInstall req =
      ({ status := InstallStatus.error
         errorCode := some (InstallController.mapErrorToCode e) },
        [⟨p.code, p.context, p.scope, ctrl.redirectUri⟩]) := by
  unfold InstallController.performInstall
  rw [hg]
  simp [hres]

/-- Claim C5: every redirect URL built by `handle` carries a `status`
parameter that is `success` or `error`, together with exactly one of the
parameters `context` (on success, set to the request's store context: the
value of the request's `context` query parameter, which is non-empty) or
`code` (on error, one of the three fixed codes) — never both and never
neither. -/
theorem installController_redirect_query_shape (ctrl : InstallController)
    (req : HttpRequest) :
    (∃ ctx, searchParamsGet req.query "context" = some ctx ∧ ctx ≠ "" ∧
      (ctrl.handle req).1.location =
        InstallController.getBaseUrl req ++ ctrl.successPath ++ "?" ++
          serializeQuery [("status", "success"), ("context", ctx)]) ∨
    (∃ c, (c = "missing_params" ∨ c = "token_exchange_failed" ∨ c = "unknown") ∧
      (ctrl.handle req).1.location =
        InstallController.getBaseUrl req ++ ctrl.errorPath ++ "?" ++
          serializeQuery [("status", "error"), ("code", c)]) := by
  rw [handle_def]
  cases hg : InstallController.getOAuthParams req with
  | error err =>
      rw [performInstall_error_params ctrl req err hg]
      refine Or.inr ⟨InstallController.mapErrorToCode err, mapErrorToCode_cases err, ?_⟩
      show (ctrl.buildRedirectResponse req _).location = _
      rw [buildRedirectResponse_error ctrl req _ (mapErrorToCode_ne_empty err)]
      rfl
  | ok p =>
      obtain ⟨-, hctx⟩ := getOAuthParams_ok_nonempty req p hg
      cases hres : ctrl.installApp ⟨p.code, p.context, p.scope, ctrl.redirectUri⟩ with
      | ok u =>
          cases u
          rw [performInstall_ok_ok ctrl req p hg hres]
          refine Or.inl ⟨p.context, getOAuthParams_ok_context req p hg, hctx, ?_⟩
          show (ctrl.buildRedirectResponse req _).location = _
          rw [buildRedirectResponse_success ctrl req _ hctx]
          rfl
      | error e =>
          rw [performInstall_ok_error ctrl req p e hg hres]
          refine Or.inr ⟨InstallController.mapErrorToCode e, mapErrorToCode_cases e, ?_⟩
          show (ctrl.buildRedirectResponse req _).location = _
          rw [buildRedirectResponse_error ctrl req _ (mapErrorToCode_ne_empty e)]
          rfl

/-- The request of the spec's worked example: query
`?code=abc123&context=stores/xyz&scope=store_v2_products` with forwarded
host and protocol headers. -/
def reqExample : HttpRequest :=
  { query := [("code", "abc123"), ("context", "stores/xyz"), ("scope", "store_v2_products")]
    headers := [("x-forwarded-host", "public.example.com"), ("x-forwarded-proto", "https")] }

/-- Claim C7: on the example request, with default paths and an installation
use case completing without error, `handle` redirects to exactly
`https://public.example.com/auth/result?status=success&context=stores%2Fxyz`
(the store context URL-encoded in the query string). -/
theorem installController_success_example (useCase : InstallAppUseCase) (ru : String)
    (h : useCase ⟨"abc123", "stores/xyz", "store_v2_products", ru⟩ = Except.ok ()) :
    ((InstallController.ofConfig { installApp := useCase, redirectUri := ru }).handle
        reqExample).1.location =
      "https://public.example.com/auth/result?status=success&context=stores%2Fxyz" := by
  have hg : InstallController.getOAuthParams reqExample =
      Except.ok ⟨"abc123", "stores/xyz", "store_v2_products"⟩ := rfl
  rw [handle_def,
    performInstall_ok_ok _ reqExample ⟨"abc123", "stores/xyz", "store_v2_products"⟩ hg h]
  rfl

/-- Witness for C7 with a concrete use case that completes without error. -/
theorem installController_success_example_witness :
    ((InstallController.ofConfig
        { installApp := okUseCase
          redirectUri := "https://app.example.com/api/auth" }).handle reqExample).1.location =
      "https://public.example.com/auth/result?status=success&context=stores%2Fxyz" :=
  installController_success_example okUseCase "https://app.example.com/api/auth" rfl

/-! ## Claim C8 -/

/-- Claim C8: for every source tree with a root file and one nested file
(distinct entry names at the root), copying into a non-existent destination
creates the destination directory and reproduces both files with identical
contents; copying again onto a destination holding stale same-named files
overwrites them with the source's current contents. -/
theorem copyDirectory_reproduces_and_overwrites (f d g a b a2 b2 : String) (hfd : f ≠ d) :
    copyDirectory (twoFileTree f d g a b) none = Except.ok (twoFileTree f d g a b) ∧
    copyDirectory (twoFileTree f d g a b) (some (twoFileTree f d g a2 b2)) =
      Except.ok (twoFileTree f d g a b) := by
  have h1 : (f == d) = false := by simp [hfd]
  have h2 : (d == f) = false := by simp [Ne.symm hfd]
  constructor <;>
    simp [copyDirectory, twoFileTree, copyDirEntriesInto, copyDirEntries, lookupEntry,
      insertEntry, List.find?, Except.map, h1, h2]

/-- Witness for C8 at concrete names and contents. -/
theorem copyDirectory_reproduces_and_overwrites_witness :
    copyDirectory (twoFileTree "root.txt" "sub" "nested.txt" "alpha" "beta") none =
      Except.ok (twoFileTree "root.txt" "sub" "nested.txt" "alpha" "beta") ∧
    copyDirectory (twoFileTree "root.txt" "sub" "nested.txt" "alpha" "beta")
        (some (twoFileTree "root.txt" "sub" "nested.txt" "stale1" "stale2")) =
      Except.ok (twoFileTree "root.txt" "sub" "nested.txt" "alpha" "beta") :=
  copyDirectory_reproduces_and_overwrites "root.txt" "sub" "nested.txt"
    "alpha" "beta" "stale1" "stale2" (by decide)

/-! ## Claim C9 -/

theorem runRequests_preserves (ctrl : InstallController) (reqs : List HttpRequest) :
    (ctrl.runRequests reqs).1 = ctrl ∧
    (ctrl.runRequests reqs).2 = reqs.map ctrl.handle := by
  induction reqs with
  | nil => exact ⟨rfl, rfl⟩
  | cons r rs ih =>
      unfold InstallController.runRequests InstallController.handleStep
      simp [ih.1, ih.2]

/-- Claim C9: after construction the controller's four fields equal the
configuration values, with `successPath` and `errorPath` defaulting to
`/auth/result` when absent; a sequence of `handle` invocations leaves the
controller state unchanged and each response depends only on the immutable
configuration and its own request, so no state is shared or mutated across
invocations. -/
theorem installController_stateless (config : InstallHandlerConfig) (reqs : List HttpRequest) :
    (InstallController.ofConfig config).installApp = config.installApp ∧
    (InstallController.ofConfig config).redirectUri = config.redirectUri ∧
    (config.successPath = none →
      (InstallController.ofConfig config).successPath = "/auth/result") ∧
    (∀ s, config.successPath = some s →
      (InstallController.ofConfig config).successPath = s) ∧
    (config.errorPath = none →
      (InstallController.ofConfig config).errorPath = "/auth/result") ∧
    (∀ s, config.errorPath = some s →
      (InstallController.ofConfig config).errorPath = s) ∧
    ((InstallController.ofConfig config).runRequests reqs).1 =
      InstallController.ofConfig config ∧
    ((InstallController.ofConfig config).runRequests reqs).2 =
      reqs.map (InstallController.ofConfig config).handle := by
  refine ⟨rfl, rfl, ?_, ?_, ?_, ?_,
    (runRequests_preserves _ reqs).1, (runRequests_preserves _ reqs).2⟩
  · intro h
    simp [InstallController.ofConfig, h]
  · intro s hs
    simp [InstallController.ofConfig, hs]
  · intro h
    simp [InstallController.ofConfig, h]
  · intro s hs
    simp [InstallController.ofConfig, hs]
